import Mathlib

/-!
Verification development for the graph-execution engine of
`src/src/executor/graph_executor.ts` (class `GraphExecutor`).

The TypeScript source is shallowly embedded as executable Lean definitions.
Node references (`Node.children` holds object references in TS) are embedded
as indices into `Graph.nodes`.  JavaScript objects used as string-keyed maps
are embedded as association lists with JS assignment semantics (`setKey`
replaces an existing key in place, otherwise appends).  JavaScript exceptions
are embedded as `Except`: a `throw Error(msg)` becomes `JsError.thrown msg`,
while a property access on `undefined` (a TypeError crash) becomes
`JsError.typeError site`.

Collaborators of `GraphExecutor` that belong to this repository but are not
part of the given sources (`ExecutionContext`, `operations.executeOp`,
`getTensor`, `getNodeNameAndIndex`, `getParamValue`) and the external tfjs /
WebML backends (`computeConv2DInfo`, `computePool2DInfo`, the `nn` context)
are modelled from the spec, either as explicit small definitions or as
parameters that theorems quantify over.
-/

namespace GraphExec

/-- Tensors are opaque to the executor except for their identity (`tensor.id`,
used by the lifetime manager), dtype and shape (used by the accelerated-path
compiler).  Values are irrelevant to every claim and are not modelled. -/
structure Tensor where
  id : Nat
  dtype : String := "float32"
  shape : List Nat := []
  deriving Repr, DecidableEq

/-- Static node parameter values (`node.params`), resolved at
graph-construction time.  Modelled from the spec: "static parameters
(e.g. strides, padding mode) resolved at graph-construction time". -/
inductive PV where
  | s (v : String)
  | n (v : Int)
  | ns (v : List Int)
  deriving Repr, DecidableEq

/-- One operator node of the graph.  `children` holds indices into
`Graph.nodes` (the TS source stores object references). -/
structure Node where
  name : String
  op : String
  inputNames : List String
  children : List Nat := []
  params : List (String × PV) := []
  deriving Repr, DecidableEq

/-- The parsed graph.  `inputs`, `placeholders` and `outputs` are indices
into `nodes`.  Modelled from the spec's data model: placeholders are the
graph inputs, `withControlFlow` flags the presence of control-flow ops. -/
structure Graph where
  nodes : List Node
  inputs : List Nat
  placeholders : List Nat
  outputs : List Nat
  withControlFlow : Bool := false
  deriving Repr, DecidableEq

def Graph.node? (g : Graph) (i : Nat) : Option Node := g.nodes[i]?

def Graph.inputNodes (g : Graph) : List Node :=
  g.inputs.filterMap g.node?

def Graph.placeholderNodes (g : Graph) : List Node :=
  g.placeholders.filterMap g.node?

def Graph.outputNodes (g : Graph) : List Node :=
  g.outputs.filterMap g.node?

/-- Resolved child nodes of a node (the TS `node.children` array). -/
def Graph.childNodes (g : Graph) (n : Node) : List Node :=
  n.children.filterMap g.node?

/-- JS object assignment `m[k] = v`: replace the value of an existing key in
place, otherwise append the new key. -/
def setKey {κ α : Type} [DecidableEq κ] : List (κ × α) → κ → α → List (κ × α)
  | [], k, v => [(k, v)]
  | (k', v') :: rest, k, v =>
      if k' = k then (k, v) :: rest else (k', v') :: setKey rest k v

/-- JS object spread `{...a, ...b}`: keys of `a` first, entries of `b`
assigned over them. -/
def spread {α : Type} (a b : List (String × α)) : List (String × α) :=
  b.foldl (fun m kv => setKey m kv.1 kv.2) a

/-- Modelled from the spec: `getNodeNameAndIndex` (in
`operations/executors/utils`, not among the given sources) splits an input
name possibly annotated as `name:outputIndex` and returns the bare node
name; this is the component used by `compile`. -/
def baseName (name : String) : String :=
  String.mk (name.toList.takeWhile (fun c => c ≠ ':'))

/-! ### Static compiler (`GraphExecutor.compile`, lines 87–109)

The TS loop pops from the end of a JS array; the Lean embedding keeps the
stack top at the head, so pushes cons to the head and the initial seed list
is reversed.  The loop is given explicit fuel; the topological-order theorem
is an invariant of every step, hence independent of the fuel value. -/
/-- One readiness check of `compile`: the child is not yet visited and every
declared input's base name is visited. -/
def readyChild (visited : List String) (c : Node) : Bool :=
  !(visited.contains c.name) &&
    c.inputNames.all (fun nm => visited.contains (baseName nm))

/-- The `while (stack.length > 0)` loop of `compile`.  State: work stack
(top at head), visited names, emitted order. -/
def compileLoop (g : Graph) :
    Nat → List Node → List String → List Node → List Node
  | 0, _, _, ord => ord
  | _ + 1, [], _, ord => ord
  | fuel + 1, node :: rest, visited, ord =>
      compileLoop g fuel
        ((g.childNodes node).foldl
          (fun s c => if readyChild (node.name :: visited) c then c :: s else s) rest)
        (node.name :: visited)
        (ord ++ [node])

/-- Fuel bound for concrete evaluation; the theorems hold for every fuel. -/
def compileFuel (g : Graph) : Nat :=
  (g.nodes.length + 1) * (g.nodes.length + 1)

/-- `GraphExecutor.compile`: skipped for control-flow graphs, otherwise a
work-stack traversal seeded with `graph.inputs`. -/
def compile (g : Graph) : List Node :=
  if g.withControlFlow then []
  else compileLoop g (compileFuel g) g.inputNodes.reverse [] []

/-- A tiny linear graph x → y → z used as concrete test data. -/
def nodeX : Node := { name := "x", op := "placeholder", inputNames := [], children := [1] }

def nodeY : Node := { name := "y", op := "add", inputNames := ["x"], children := [2] }

def nodeZ : Node := { name := "z", op := "softmax", inputNames := ["y"], children := [] }

def gLinear : Graph :=
  { nodes := [nodeX, nodeY, nodeZ], inputs := [0], placeholders := [0],
    outputs := [2], withControlFlow := false }

/-- A diamond: a → {b, c} → d, d needs both b and c. -/
def dA : Node := { name := "a", op := "placeholder", inputNames := [], children := [1, 2] }

def dB : Node := { name := "b", op := "relu", inputNames := ["a"], children := [3] }

def dC : Node := { name := "c", op := "neg", inputNames := ["a"], children := [3] }

def dD : Node := { name := "d", op := "add", inputNames := ["b", "c"], children := [] }

def gDiamond : Graph :=
  { nodes := [dA, dB, dC, dD], inputs := [0], placeholders := [0],
    outputs := [3], withControlFlow := false }

/-! ### Claim C1: the compiled order is a valid topological order -/
/-- A node sequence is topologically valid when every node in it appears
after some occurrence of the producer of each of its declared inputs. -/
def TopoAfterProducers (ord : List Node) : Prop :=
  ∀ pre n rest, ord = pre ++ n :: rest →
    ∀ nm ∈ n.inputNames, ∃ m ∈ pre, m.name = baseName nm

/-! ### Dynamic scheduler (`GraphExecutor.executeWithControlFlow`, lines 471–511)

`ExecutionContext` (in `executor/execution_context.ts`, not among the given
sources) is modelled from the spec: the context's `currentContext` is a stack
of frames, each identified by a frame name plus an iteration index.  The
external collaborators `operations.executeOp`, `getTensor` and the
frame-qualified `getNodeNameAndIndex` are gathered into `SchedParams`, which
the scheduler and its theorems are parameterized over. -/
/-- One control-flow frame: frame name plus iteration index (modelled from
the spec's `ExecutionContextInfo`). -/
structure FrameId where
  name : String
  iterationId : Nat
  deriving Repr, DecidableEq

/-- A snapshot of the context's frame stack (`context.currentContext`). -/
abbrev Ctx := List FrameId

/-- The per-call environment: node name → produced tensors.  Entries may hold
`none` (control-flow ops such as switch produce dead `undefined` slots, which
the TS code guards with `if (tensor && ...)`). -/
abbrev TensorMap := List (String × List (Option Tensor))

/-- The external collaborators used by the dynamic scheduler: `executeOp`
(which may push/pop frames, hence returns a new frame stack), `getTensor`
(frame-aware name resolution), and the frame-qualified name of
`getNodeNameAndIndex`. -/
structure SchedParams where
  execOp : Node → TensorMap → Ctx → (List (Option Tensor) × Ctx)
  getT : String → TensorMap → Ctx → Option Tensor
  qualify : String → Ctx → String

/-- A record of one push onto the scheduler's work stack: the child's
frame-qualified name, the child node, and the environment and frame stack in
force at the moment of the push. -/
structure PushEvent where
  qname : String
  node : Node
  map : TensorMap
  ctx : Ctx
  deriving Repr, DecidableEq

/-- State threaded through one `children.forEach` pass: the `added` guard
map, the work stack (top at head), and the accumulated push log. -/
structure ChildState where
  added : List String
  stack : List (Ctx × Node)
  log : List PushEvent
  deriving Repr, DecidableEq

/-- The body of `item.node.children.forEach(...)` for one child: skip when
already scheduled under its frame-qualified name; a merge child is pushed
when any one input resolves; any other child only when all inputs resolve. -/
def processChild (P : SchedParams) (m : TensorMap) (ctx : Ctx)
    (st : ChildState) (c : Node) : ChildState :=
  if P.qualify c.name ctx ∈ st.added then st
  else if c.op = "merge" then
    if c.inputNames.any (fun nm => (P.getT nm m ctx).isSome) then
      ⟨P.qualify c.name ctx :: st.added, (ctx, c) :: st.stack,
        st.log ++ [⟨P.qualify c.name ctx, c, m, ctx⟩]⟩
    else st
  else if c.inputNames.all (fun nm => (P.getT nm m ctx).isSome) then
    ⟨P.qualify c.name ctx :: st.added, (ctx, c) :: st.stack,
      st.log ++ [⟨P.qualify c.name ctx, c, m, ctx⟩]⟩
  else st

/-- Full state of the `while (stack.length > 0)` loop. -/
structure SchedState where
  stack : List (Ctx × Node)
  map : TensorMap
  added : List String
  ctx : Ctx
  log : List PushEvent
  deriving Repr, DecidableEq

/-- The work done after popping `(ctxs, node)`: execute the node (its result
`tensors` under the post-execution frame stack `ctx'` is passed in), record
the result under the node's frame-qualified name, and scan the children. -/
def stepSchedGo (g : Graph) (P : SchedParams) (s : SchedState) (node : Node)
    (rest : List (Ctx × Node)) (tensors : List (Option Tensor)) (ctx' : Ctx) :
    SchedState :=
  { stack := ((g.childNodes node).foldl
        (processChild P (setKey s.map (P.qualify node.name ctx') tensors) ctx')
        ⟨s.added, rest, s.log⟩).stack,
    map := setKey s.map (P.qualify node.name ctx') tensors,
    added := ((g.childNodes node).foldl
        (processChild P (setKey s.map (P.qualify node.name ctx') tensors) ctx')
        ⟨s.added, rest, s.log⟩).added,
    ctx := ctx',
    log := ((g.childNodes node).foldl
        (processChild P (setKey s.map (P.qualify node.name ctx') tensors) ctx')
        ⟨s.added, rest, s.log⟩).log }

/-- One iteration of the scheduler loop: pop an item, restore its context
snapshot, execute the node, record its result under the frame-qualified
name, and scan its children. -/
def stepSched (g : Graph) (P : SchedParams) (s : SchedState) : SchedState :=
  match s.stack with
  | [] => s
  | (ctxs, node) :: rest =>
      stepSchedGo g P s node rest (P.execOp node s.map ctxs).1
        (P.execOp node s.map ctxs).2

/-- The scheduler loop with explicit fuel; all scheduling theorems are loop
invariants, hence independent of the fuel value. -/
def execCFLoop (g : Graph) (P : SchedParams) : Nat → SchedState → SchedState
  | 0, s => s
  | fuel + 1, s =>
    match s.stack with
    | [] => s
    | _ :: _ => execCFLoop g P fuel (stepSched g P s)

def toOptMap (m : List (String × List Tensor)) : TensorMap :=
  m.map (fun kv => (kv.1, kv.2.map some))

/-- `GraphExecutor.executeWithControlFlow`: seed the stack with the graph
inputs paired with the initial context snapshot, pre-seed the environment
with `{...weightMap, ...inputs}`, and run the loop. -/
def executeWithControlFlow (g : Graph) (P : SchedParams) (fuel : Nat)
    (inputs weights : List (String × List Tensor)) (ctx0 : Ctx) : SchedState :=
  execCFLoop g P fuel
    { stack := (g.inputNodes.map (fun n => (ctx0, n))).reverse,
      map := spread (toOptMap weights) (toOptMap inputs),
      added := [], ctx := ctx0, log := [] }

/-! ### Claims C2 and C3: scheduling gates and the duplicate guard -/
/-- The invariant carried by the scheduler: the log's frame-qualified names
are distinct and registered in `added`, every recorded non-merge push had all
of its inputs resolved, and every merge push had at least one. -/
def LogInv (P : SchedParams) (added : List String) (log : List PushEvent) : Prop :=
  (log.map PushEvent.qname).Nodup ∧
  (∀ e ∈ log, e.qname ∈ added) ∧
  (∀ e ∈ log,
    (e.node.op ≠ "merge" →
      ∀ nm ∈ e.node.inputNames, (P.getT nm e.map e.ctx).isSome = true) ∧
    (e.node.op = "merge" →
      ∃ nm ∈ e.node.inputNames, (P.getT nm e.map e.ctx).isSome = true))

/-! Concrete scheduler instantiation used by the witnesses: name resolution
ignores frames, every operator returns one fresh tensor of id 0. -/
def tId0 : Tensor := { id := 0 }

def Pconc : SchedParams :=
  { execOp := fun _ _ ctx => ([some tId0], ctx),
    getT := fun nm m _ =>
      match m.lookup (baseName nm) with
      | some (some t :: _) => some t
      | _ => none,
    qualify := fun nm _ => nm }

/-- A conditional-merge graph: placeholder p feeds two candidate producers
s1 and s2, both feeding one merge node. -/
def cfP : Node := { name := "p", op := "placeholder", inputNames := [], children := [1, 2] }

def cfS1 : Node := { name := "s1", op := "identity", inputNames := ["p"], children := [3] }

def cfS2 : Node := { name := "s2", op := "identity", inputNames := ["p"], children := [3] }

def cfM : Node := { name := "mrg", op := "merge", inputNames := ["s1", "s2"], children := [] }

def gCF : Graph :=
  { nodes := [cfP, cfS1, cfS2, cfM], inputs := [0], placeholders := [0],
    outputs := [3], withControlFlow := true }

/-- The environment in force when s1 is pushed in the concrete run. -/
def e1map : TensorMap := [("p", [some tId0])]

/-- The environment in force when the merge node is pushed: s2 has resolved,
s1 has not. -/
def mergeMapW : TensorMap := [("p", [some tId0]), ("s2", [some tId0])]

/-! ### findOutputs and the tensor lifetime manager
(`GraphExecutor.findOutputs` lines 513–526, `executeAsync` lines 438–463) -/
/-- JavaScript failures: `JsError.thrown msg` embeds `throw Error(msg)`;
`JsError.typeError site` embeds the TypeError raised by a property access on
`undefined` at the named source site. -/
inductive JsError where
  | thrown (msg : String)
  | typeError (site : String)
  deriving Repr, DecidableEq

/-- `GraphExecutor.findOutputs`: the requested names (defaulting to the
declared graph outputs) are resolved through `getTensor` and accumulated
into a fresh map; no check restricts a name to the declared outputs. -/
def findOutputs (P : SchedParams) (g : Graph) (tensorMap : TensorMap)
    (ctx : Ctx) (outputs? : Option (List String)) :
    List (String × Option Tensor) :=
  (outputs?.getD (g.outputNodes.map Node.name)).foldl
    (fun m name => setKey m name (P.getT name tensorMap ctx)) []

/-- The per-tensor body of the cleanup scan in `executeAsync`: a present
tensor whose id is in none of the three exempt sets is disposed (its id is
emitted), everything else is left alone. -/
def disposeTensor (outputIds inputIds weightIds : List Nat) :
    Option Tensor → List Nat
  | none => []
  | some t =>
      if t.id ∉ outputIds ∧ t.id ∉ inputIds ∧ t.id ∉ weightIds then [t.id]
      else []

/-- The nested `Object.keys(tensors).forEach / tensorArray.forEach` cleanup
scan of `executeAsync`, returning the ids disposed, in disposal order. -/
def disposeScan (tensors : TensorMap) (outputIds inputIds weightIds : List Nat) :
    List Nat :=
  tensors.foldl
    (fun disposed kv =>
      kv.2.foldl
        (fun disposed t? =>
          disposed ++ disposeTensor outputIds inputIds weightIds t?) disposed)
    []

/-- The weight-id set derived in the `weightMap` setter (lines 57–62). -/
def weightIdsOf (weights : List (String × List Tensor)) : List Nat :=
  (weights.map (fun kv => kv.2.map Tensor.id)).flatten

/-- The input-id set derived in `executeAsync` (lines 449–451). -/
def inputIdsOf (inputs : List (String × List Tensor)) : List Nat :=
  (inputs.map (fun kv => kv.2.map Tensor.id)).flatten

/-- Reading `results[key].id` for every requested output; an `undefined`
result makes the property access crash, modelled as `none`. -/
def liftResults (results : List (String × Option Tensor)) :
    Option (List (String × Tensor)) :=
  results.mapM (fun kv => kv.2.map (fun t => (kv.1, t)))

/-- `GraphExecutor.executeAsync`: run the control-flow scheduler, select the
requested outputs, then dispose every environment tensor that is neither a
returned output, nor a supplied input, nor a weight. -/
def executeAsync (g : Graph) (P : SchedParams) (fuel : Nat)
    (weights inputs : List (String × List Tensor)) (ctx0 : Ctx)
    (outputs? : Option (List String)) :
    Except JsError (List (String × Tensor) × List Nat) :=
  match liftResults (findOutputs P g
      (executeWithControlFlow g P fuel inputs weights ctx0).map
      (executeWithControlFlow g P fuel inputs weights ctx0).ctx outputs?) with
  | none => .error (.typeError "results[key].id")
  | some res =>
      .ok (res,
        disposeScan (executeWithControlFlow g P fuel inputs weights ctx0).map
          (res.map (fun kv => kv.2.id)) (inputIdsOf inputs)
          (weightIdsOf weights))

/-- Scheduler instantiation for the C4 witness: each operator produces one
tensor with a distinct id determined by the node's name. -/
def PconcIds : SchedParams :=
  { execOp := fun n _ ctx =>
      ([some { id := if n.name = "p" then 1 else if n.name = "s1" then 2
                else if n.name = "s2" then 3 else if n.name = "mrg" then 4
                else 9 }], ctx),
    getT := fun nm m _ =>
      match m.lookup (baseName nm) with
      | some (some t :: _) => some t
      | _ => none,
    qualify := fun nm _ => nm }

def inpW : List (String × List Tensor) := [("p", [{ id := 10 }])]

def wW : List (String × List Tensor) := [("w", [{ id := 20 }])]

/-! ### Accelerated-path compiler (`GraphExecutor.compileWebMLModel`,
lines 127–377)

The WebML `nn` context and its numeric constants, and the tfjs-core shape
helpers `computeConv2DInfo`/`computePool2DInfo`, are external collaborators;
they are modelled as abstract parameter bundles (`NNApi`, `TfjsConv`).  The
model records every `addOperand`, `setOperandValue` and `addOperation` call
issued to the backend. -/
/-- The `OperandInfo` record of the source: operand-table index, element
type, shape. -/
structure OperandInfo where
  index : Nat
  dtype : String
  shape : List Nat
  deriving Repr, DecidableEq

/-- A value bound to an operand slot by `setOperandValue`. -/
inductive OperandValue where
  | int32Array (xs : List Int)
  | float32Array (xs : List Int)
  | tensorBuffer (id : Nat)
  deriving Repr, DecidableEq

/-- The numeric constants of the external neural-network API object
(`this.nn`); concrete values are backend-defined, so theorems quantify over
this bundle. -/
structure NNApi where
  PADDING_SAME : Int := 1
  PADDING_VALID : Int := 2
  FUSED_NONE : Int := 0
  FUSED_RELU : Int := 1
  FUSED_RELU1 : Int := 2
  FUSED_RELU6 : Int := 3
  CONV_2D : Int := 3
  DEPTHWISE_CONV_2D : Int := 4
  AVERAGE_POOL_2D : Int := 10
  RESHAPE : Int := 22
  SOFTMAX : Int := 25
  TENSOR_FLOAT32 : Int := 30
  TENSOR_INT32 : Int := 31
  INT32 : Int := 32
  FLOAT32 : Int := 33
  deriving Repr, DecidableEq

/-- The external tfjs-core shape computations `computeConv2DInfo(...).outShape`
and `computePool2DInfo(...).outShape`, abstracted. -/
structure TfjsConv where
  convOutShape : List Nat → List Nat → List Int → List Int → String → Bool → List Nat
  poolOutShape : List Nat → List Int → List Int → String → List Nat

/-- Compilation state: the `operandIndex` counter, the `operandInfos` map,
the `visited` set, and the record of backend calls (`operands` from
`addOperand` as (type, dimensions), `operandValues` from `setOperandValue`,
`operations` from `addOperation` as (opType, inputs, outputs)). -/
structure WebMLState where
  operandIndex : Nat
  operandInfos : List (String × OperandInfo)
  visited : List String
  operands : List (Int × List Nat)
  operandValues : List (Nat × OperandValue)
  operations : List (Int × List Nat × List Nat)
  deriving Repr, DecidableEq

def initWebMLState : WebMLState := ⟨0, [], [], [], [], []⟩

/-- `GraphExecutor.addScalarInt32`: allocate one scalar INT32 operand and
bind `new Int32Array([value])` to it. -/
def addScalarInt32 (nn : NNApi) (st : WebMLState) (v : Int) : Nat × WebMLState :=
  (st.operandIndex,
    { st with
      operandIndex := st.operandIndex + 1,
      operands := st.operands ++ [(nn.INT32, [])],
      operandValues := setKey st.operandValues st.operandIndex (.int32Array [v]) })

/-- `GraphExecutor.addScalarFloat32`: allocate one scalar FLOAT32 operand
and bind `new Float32Array([value])` to it. -/
def addScalarFloat32 (nn : NNApi) (st : WebMLState) (v : Int) : Nat × WebMLState :=
  (st.operandIndex,
    { st with
      operandIndex := st.operandIndex + 1,
      operands := st.operands ++ [(nn.FLOAT32, [])],
      operandValues := setKey st.operandValues st.operandIndex (.float32Array [v]) })

/-- Modelled from the spec: `getParamValue(name, node, ...)` reads the
node's static parameter bundle (parameters are "resolved at
graph-construction time"). -/
def Node.param? (n : Node) (k : String) : Option PV :=
  n.params.lookup k

/-- Rendering of a parameter value inside a thrown error message (template
interpolation `${pad}`); a missing parameter renders as "undefined". -/
def pvShow : Option PV → String
  | none => "undefined"
  | some (.s v) => v
  | some (.n v) => toString v
  | some (.ns v) => String.intercalate "," (v.map toString)

def Graph.childAt (g : Graph) (n : Node) (i : Nat) : Option Node :=
  (g.childNodes n)[i]?

/-- Reading `this.operandInfos[name].index` where `name` itself may be the
result of an out-of-range `inputNames[i]`: a missing name or a missing info
record both surface as a TypeError at the use site. -/
def lookInfo (st : WebMLState) (nm? : Option String) (site : String) :
    Except JsError OperandInfo :=
  match nm? with
  | none => .error (.typeError site)
  | some nm =>
    match st.operandInfos.lookup nm with
    | none => .error (.typeError site)
    | some i => .ok i

/-- Sequencing of the embedded JS computation: a raised error short-circuits. -/
def exThen {α β : Type} : Except JsError α → (α → Except JsError β) → Except JsError β
  | .error e, _ => .error e
  | .ok a, f => f a

/-- The padding-mode dispatch shared by the conv and pool branches: 'same'
and 'valid' allocate the scalar padding-code operand, anything else throws
`padding ${pad} is not supported`. -/
def padCompute (nn : NNApi) (st : WebMLState) (padv : Option PV) :
    Except JsError (String × Nat × WebMLState) :=
  if padv = some (.s "same") then
    .ok ("same", addScalarInt32 nn st nn.PADDING_SAME)
  else if padv = some (.s "valid") then
    .ok ("valid", addScalarInt32 nn st nn.PADDING_VALID)
  else .error (.thrown ("padding " ++ pvShow padv ++ " is not supported"))

/-- Reading a `number[]` parameter (strides, dilations, kernelSize): a
missing or non-array value crashes at the indexing/arraysEqual use site. -/
def numsParam (v : Option PV) (site : String) : Except JsError (List Int) :=
  match v with
  | some (.ns l) => .ok l
  | _ => .error (.typeError site)

/-- Character-level uppercase; `String.toUpper` itself is not used because
its `String.mapAux` does not reduce in the kernel. -/
def jsToUpper (s : String) : String :=
  String.mk (s.toList.map Char.toUpper)

/-- `(getParamValue('dataFormat', ...) as string).toUpperCase()`: a missing
or non-string value crashes at `.toUpperCase`. -/
def dataFormatParam (v : Option PV) : Except JsError String :=
  match v with
  | some (.s s) => .ok (jsToUpper s)
  | _ => .error (.typeError "toUpperCase")

/-- The fused-activation code: RELU1 for clip max 1, RELU6 for clip max 6,
RELU for any other clipByValue, NONE without a fused clip node. -/
def fuseCodeOf (nn : NNApi) : Option Node → Int
  | none => nn.FUSED_NONE
  | some relu =>
    match relu.param? "clipValueMax" with
    | some (.n 1) => nn.FUSED_RELU1
    | some (.n 6) => nn.FUSED_RELU6
    | _ => nn.FUSED_RELU

/-- The dataFormat validation of the conv branch: uppercase the parameter
and throw `dataFormat ${dataFormat} is not supported` unless it is NHWC. -/
def dataFormatParamCheck (node : Node) : Except JsError Unit :=
  exThen (dataFormatParam (node.param? "dataFormat")) fun dataFormat =>
  if dataFormat ≠ "NHWC" then
    .error (.thrown ("dataFormat " ++ dataFormat ++ " is not supported"))
  else .ok ()

/-- Final state assembly of the conv branch: stride scalars, the depthwise
multiplier, the fused-activation scalar, the output operand (registered
under the fused subgraph's final node name) and the conv operation.  Note
the source checks `util.arraysEqual(dilations, [1,1,1,1])` but its error
reporting is commented out, so unsupported dilations have no effect. -/
def convEmit (nn : NNApi) (tc : TfjsConv) (node : Node) (ba : Node)
    (relu? : Option Node) (inputInfo filterInfo biasInfo : OperandInfo)
    (psp : String × Nat × WebMLState) (strides dilations : List Int) :
    Except JsError WebMLState :=
  let s1 := addScalarInt32 nn psp.2.2 (strides.getD 1 0)
  let s2 := addScalarInt32 nn s1.2 (strides.getD 2 0)
  let depthwise := !(node.op = "conv2d")
  let stC := if depthwise then (addScalarInt32 nn s2.2 1).2 else s2.2
  let depthInputs := if depthwise then [(addScalarInt32 nn s2.2 1).1] else []
  let fuse := addScalarInt32 nn stC (fuseCodeOf nn relu?)
  let outputName := match relu? with | some r => r.name | none => ba.name
  let outShape := tc.convOutShape
    [inputInfo.shape.getD 0 0, inputInfo.shape.getD 1 0,
      inputInfo.shape.getD 2 0, inputInfo.shape.getD 3 0]
    [filterInfo.shape.getD 0 0, filterInfo.shape.getD 1 0,
      filterInfo.shape.getD 2 0, filterInfo.shape.getD 3 0]
    [strides.getD 1 0, strides.getD 2 0]
    [dilations.getD 0 0, dilations.getD 1 0]
    psp.1 depthwise
  .ok { fuse.2 with
    operandIndex := fuse.2.operandIndex + 1,
    operandInfos := setKey fuse.2.operandInfos outputName
      ⟨fuse.2.operandIndex, inputInfo.dtype, outShape⟩,
    operands := fuse.2.operands ++ [(nn.TENSOR_FLOAT32, outShape)],
    operations := fuse.2.operations ++
      [(if depthwise then nn.DEPTHWISE_CONV_2D else nn.CONV_2D,
        [inputInfo.index, filterInfo.index, biasInfo.index, psp.2.1, s1.1, s2.1]
          ++ depthInputs ++ [fuse.1],
        [fuse.2.operandIndex])] }

/-- The conv2d / depthwiseConv2d branch after the fusion pattern has been
resolved; `ba` is the fused bias-add node (the source reaches the bias
lookup only having matched it). -/
def convCompileCore (nn : NNApi) (tc : TfjsConv) (st : WebMLState) (node : Node)
    (ba? relu? : Option Node) : Except JsError WebMLState :=
  exThen (lookInfo
      { st with visited := st.visited ++ [node.name] ++
          (match ba? with | some b => [b.name] | none => []) ++
          (match relu? with | some r => [r.name] | none => []) }
      node.inputNames[0]? "input.index") fun inputInfo =>
  exThen (lookInfo
      { st with visited := st.visited ++ [node.name] ++
          (match ba? with | some b => [b.name] | none => []) ++
          (match relu? with | some r => [r.name] | none => []) }
      node.inputNames[1]? "filter.index") fun filterInfo =>
  (match ba? with
  | none => .error (.typeError "biasAdd.inputNames")
  | some ba =>
    exThen (lookInfo
        { st with visited := st.visited ++ [node.name] ++ [ba.name] ++
            (match relu? with | some r => [r.name] | none => []) }
        ba.inputNames[1]? "bias.index") fun biasInfo =>
    exThen (padCompute nn
        { st with visited := st.visited ++ [node.name] ++ [ba.name] ++
            (match relu? with | some r => [r.name] | none => []) }
        (node.param? "pad")) fun psp =>
    exThen (numsParam (node.param? "strides") "strides[1]") fun strides =>
    exThen (dataFormatParamCheck node) fun _ =>
    exThen (numsParam (node.param? "dilations") "arraysEqual") fun dilations =>
    convEmit nn tc node ba relu? inputInfo filterInfo biasInfo psp strides dilations)

/-- The conv2d / depthwiseConv2d fusion-pattern walk: `children[0]` must
exist (else `childNode.op` crashes); a bias-add child is matched, and then
`biasAdd.children[0]` must exist; a clipByValue grandchild is fused. -/
def convCompile (nn : NNApi) (tc : TfjsConv) (g : Graph) (st : WebMLState)
    (node : Node) : Except JsError WebMLState :=
  match g.childAt node 0 with
  | none => .error (.typeError "childNode.op")
  | some child0 =>
    if child0.op = "add" then
      match g.childAt child0 0 with
      | none => .error (.typeError "childNode.op")
      | some c2 =>
        convCompileCore nn tc st node (some child0)
          (if c2.op = "clipByValue" then some c2 else none)
    else convCompileCore nn tc st node none none

def poolEmit (nn : NNApi) (tc : TfjsConv) (node : Node) (relu? : Option Node)
    (inputInfo : OperandInfo) (psp : String × Nat × WebMLState)
    (strides kernelSize : List Int) : Except JsError WebMLState :=
  let s1 := addScalarInt32 nn psp.2.2 (strides.getD 1 0)
  let s2 := addScalarInt32 nn s1.2 (strides.getD 2 0)
  let k1 := addScalarInt32 nn s2.2 (kernelSize.getD 1 0)
  let k2 := addScalarInt32 nn k1.2 (kernelSize.getD 2 0)
  let fuse := addScalarInt32 nn k2.2 (fuseCodeOf nn relu?)
  let outputName := match relu? with | some r => r.name | none => node.name
  let outShape := tc.poolOutShape
    [inputInfo.shape.getD 0 0, inputInfo.shape.getD 1 0,
      inputInfo.shape.getD 2 0, inputInfo.shape.getD 3 0]
    [kernelSize.getD 1 0, kernelSize.getD 2 0]
    [strides.getD 1 0, strides.getD 2 0]
    psp.1
  .ok { fuse.2 with
    operandIndex := fuse.2.operandIndex + 1,
    operandInfos := setKey fuse.2.operandInfos outputName
      ⟨fuse.2.operandIndex, inputInfo.dtype, outShape⟩,
    operands := fuse.2.operands ++ [(nn.TENSOR_FLOAT32, outShape)],
    operations := fuse.2.operations ++
      [(nn.AVERAGE_POOL_2D,
        [inputInfo.index, psp.2.1, s1.1, s2.1, k1.1, k2.1, fuse.1],
        [fuse.2.operandIndex])] }

/-- The avgPool branch after the fusion walk. -/
def poolCompileCore (nn : NNApi) (tc : TfjsConv) (st : WebMLState) (node : Node)
    (relu? : Option Node) : Except JsError WebMLState :=
  exThen (lookInfo
      { st with visited := st.visited ++ [node.name] ++
          (match relu? with | some r => [r.name] | none => []) }
      node.inputNames[0]? "input.index") fun inputInfo =>
  exThen (padCompute nn
      { st with visited := st.visited ++ [node.name] ++
          (match relu? with | some r => [r.name] | none => []) }
      (node.param? "pad")) fun psp =>
  exThen (numsParam (node.param? "strides") "strides[1]") fun strides =>
  exThen (numsParam (node.param? "kernelSize") "kernelSize[1]") fun kernelSize =>
  poolEmit nn tc node relu? inputInfo psp strides kernelSize

/-- The avgPool branch: `children[0]` must exist; a clipByValue child is
fused. -/
def poolCompile (nn : NNApi) (tc : TfjsConv) (g : Graph) (st : WebMLState)
    (node : Node) : Except JsError WebMLState :=
  match g.childAt node 0 with
  | none => .error (.typeError "childNode.op")
  | some child0 =>
    poolCompileCore nn tc st node
      (if child0.op = "clipByValue" then some child0 else none)

/-- JavaScript's `index in axis` on an array: it tests whether `index` is an
own property KEY of the array object — for a dense array literal the keys
are 0 … length−1 — independently of the values stored in `axis`. -/
def jsIndexInArray (i : Nat) (axis : List Int) : Bool :=
  i < axis.length

/-- The `inputShape.reduce((shape, value, index) => ...)` of the squeeze
branch, with its running element index. -/
def squeezeGo (axis : List Int) : Nat → List Nat → List Nat → List Nat
  | _, acc, [] => acc
  | i, acc, v :: rest =>
      squeezeGo axis (i + 1) (if !jsIndexInArray i axis then acc ++ [v] else acc) rest

/-- The reshape target shape emitted for a squeeze node. -/
def squeezeOutShape (inputShape : List Nat) (axis : List Int) : List Nat :=
  squeezeGo axis 0 [] inputShape

/-- `node.params['axis'].value as number[]`: a missing params entry crashes
at `.value`; a non-array value crashes at the `in` operator. -/
def axisParam : Option PV → Except JsError (List Int)
  | some (.ns l) => .ok l
  | some _ => .error (.typeError "index in axis")
  | none => .error (.typeError "params.axis.value")

/-- The squeeze branch: computes the out shape with the `index in axis`
test, allocates the new-shape INT32 operand holding the out shape, the
output operand, and a RESHAPE operation. -/
def squeezeCompile (nn : NNApi) (st : WebMLState) (node : Node) :
    Except JsError WebMLState :=
  exThen (lookInfo st node.inputNames[0]? "input.index") fun inputInfo =>
  exThen (axisParam (node.param? "axis")) fun axis =>
  .ok { st with
    operandIndex := st.operandIndex + 2,
    operandInfos := setKey st.operandInfos node.name
      ⟨st.operandIndex + 1, inputInfo.dtype, squeezeOutShape inputInfo.shape axis⟩,
    operands := st.operands ++
      [(nn.TENSOR_INT32, [(squeezeOutShape inputInfo.shape axis).length]),
        (nn.TENSOR_FLOAT32, squeezeOutShape inputInfo.shape axis)],
    operandValues := setKey st.operandValues st.operandIndex
      (.int32Array ((squeezeOutShape inputInfo.shape axis).map Int.ofNat)),
    operations := st.operations ++
      [(nn.RESHAPE, [inputInfo.index, st.operandIndex], [st.operandIndex + 1])],
    visited := st.visited ++ [node.name] }

/-- The softmax branch: beta scalar 1.0, output operand of the input's
shape, SOFTMAX operation. -/
def softmaxCompile (nn : NNApi) (st : WebMLState) (node : Node) :
    Except JsError WebMLState :=
  exThen (lookInfo st node.inputNames[0]? "input.index") fun inputInfo =>
  .ok { st with
    operandIndex := st.operandIndex + 2,
    operandInfos := setKey st.operandInfos node.name
      ⟨st.operandIndex + 1, inputInfo.dtype, inputInfo.shape⟩,
    operands := st.operands ++ [(nn.FLOAT32, []), (nn.TENSOR_FLOAT32, inputInfo.shape)],
    operandValues := setKey st.operandValues st.operandIndex (.float32Array [1]),
    operations := st.operations ++
      [(nn.SOFTMAX, [inputInfo.index, st.operandIndex], [st.operandIndex + 1])],
    visited := st.visited ++ [node.name] }

/-- The 4-D weight transposition `tensor.transpose([3, 0, 1, 2])` applied to
const tensors before upload. -/
def permute3012 (shape : List Nat) : List Nat :=
  [shape.getD 3 0, shape.getD 0 0, shape.getD 1 0, shape.getD 2 0]

/-- One step of the `compiledOrder.reduce` of `compileWebMLModel`: dispatch
on the node's operator kind; a node already visited (absorbed into a fused
pattern) and a node of an unsupported kind are both left untouched. -/
def compileNodeWebML (nn : NNApi) (tc : TfjsConv) (g : Graph)
    (map : List (String × List Tensor)) (st : WebMLState) (node : Node) :
    Except JsError WebMLState :=
  if node.name ∈ st.visited then .ok st
  else if node.op = "placeholder" then
    match (map.lookup node.name).bind List.head? with
    | none => .error (.typeError "map[node.name][0]")
    | some tensor =>
      .ok { st with
        operandIndex := st.operandIndex + 1,
        operandInfos := setKey st.operandInfos node.name
          ⟨st.operandIndex, tensor.dtype, tensor.shape⟩,
        operands := st.operands ++ [(nn.TENSOR_FLOAT32, tensor.shape)],
        visited := st.visited ++ [node.name] }
  else if node.op = "const" then
    match (map.lookup node.name).bind List.head? with
    | none => .error (.typeError "map[node.name][0]")
    | some tensor =>
      if tensor.shape.length = 4 then
        .ok { st with
          operandIndex := st.operandIndex + 1,
          operandInfos := setKey st.operandInfos node.name
            ⟨st.operandIndex, tensor.dtype, tensor.shape⟩,
          operands := st.operands ++ [(nn.TENSOR_FLOAT32, permute3012 tensor.shape)],
          operandValues := setKey st.operandValues st.operandIndex
            (.tensorBuffer tensor.id),
          visited := st.visited ++ [node.name] }
      else
        .ok { st with
          operandIndex := st.operandIndex + 1,
          operandInfos := setKey st.operandInfos node.name
            ⟨st.operandIndex, tensor.dtype, tensor.shape⟩,
          operands := st.operands ++ [(nn.TENSOR_FLOAT32, tensor.shape)],
          operandValues := setKey st.operandValues st.operandIndex
            (.tensorBuffer tensor.id),
          visited := st.visited ++ [node.name] }
  else if node.op = "conv2d" ∨ node.op = "depthwiseConv2d" then
    convCompile nn tc g st node
  else if node.op = "avgPool" then
    poolCompile nn tc g st node
  else if node.op = "squeeze" then
    squeezeCompile nn st node
  else if node.op = "softmax" then
    softmaxCompile nn st node
  else .ok st

/-- `GraphExecutor.compileWebMLModel`: walk the compiled order once over the
map `{...weightMap, ...inputTensors}`, then identify the first placeholder's
and first declared output's operand indices. -/
def compileWebMLModel (nn : NNApi) (tc : TfjsConv) (g : Graph)
    (weights inputs : List (String × List Tensor)) :
    Except JsError (WebMLState × Nat × Nat) :=
  exThen ((compile g).foldlM
      (fun st node => compileNodeWebML nn tc g (spread weights inputs) st node)
      initWebMLState) fun st =>
  match g.placeholderNodes.head? with
  | none => .error (.typeError "placeholders[0].name")
  | some p =>
    match st.operandInfos.lookup p.name with
    | none => .error (.typeError "input.index")
    | some inInfo =>
      match g.outputNodes.head? with
      | none => .error (.typeError "outputs[0].name")
      | some o =>
        match st.operandInfos.lookup o.name with
        | none => .error (.typeError "output.index")
        | some outInfo => .ok (st, inInfo.index, outInfo.index)

/-- `GraphExecutor.executeWebMLModel`: bind the first placeholder's tensor
as input 0, allocate one output tensor shaped after the first declared
output's operand info (`mkOut` abstracts `Tensor.make`), run (`runErr` is
the backend's `startCompute` error result, thrown when non-null), and return
a map holding only that first declared output.  The `outputs?` argument is
accepted and ignored, exactly as in the source. -/
def executeWebMLModel (g : Graph) (st : WebMLState) (mkOut : List Nat → Tensor)
    (runErr : Option String) (inputs : List (String × List Tensor))
    (_outputs? : Option (List String)) : Except JsError (List (String × Tensor)) :=
  match g.placeholderNodes.head? with
  | none => .error (.typeError "placeholders[0].name")
  | some p =>
    match (inputs.lookup p.name).bind List.head? with
    | none => .error (.typeError "inputTensor.buffer")
    | some _ =>
      match g.outputNodes.head? with
      | none => .error (.typeError "outputs[0].name")
      | some o =>
        match st.operandInfos.lookup o.name with
        | none => .error (.typeError "output.shape")
        | some info =>
          match runErr with
          | some e => .error (.thrown e)
          | none => .ok [(o.name, mkOut info.shape)]

/-! ### Input validation and `execute` (lines 408–427, 536–556) -/
/-- Thrown input-contract violations; the source renders them as
`Missing input placeholders: ${missing}` / `Extra input tensors: ${extra}`,
embedded here as structured errors carrying the offending name lists. -/
inductive InputError where
  | missing (names : List String)
  | extra (names : List String)
  deriving Repr, DecidableEq

/-- The `missing` list of `checkInput`: declared placeholders absent from
the supplied input keys, in declaration order. -/
def missingOf (placeholders inputKeys : List String) : List String :=
  placeholders.filter (fun nm => !inputKeys.contains nm)

/-- The `extra` list of `checkInput`: supplied input keys that are not
declared placeholders, in supply order. -/
def extraOf (placeholders inputKeys : List String) : List String :=
  inputKeys.filter (fun nm => !placeholders.contains nm)

/-- `GraphExecutor.checkInput`: missing names are reported first, then
extra names. -/
def checkInput (placeholders : List String)
    (inputs : List (String × List Tensor)) : Except InputError Unit :=
  if missingOf placeholders (inputs.map Prod.fst) ≠ [] then
    .error (.missing (missingOf placeholders (inputs.map Prod.fst)))
  else if extraOf placeholders (inputs.map Prod.fst) ≠ [] then
    .error (.extra (extraOf placeholders (inputs.map Prod.fst)))
  else .ok ()

/-- Failures surfaced by `execute`: an input-contract violation from
`checkInput`, or a JS failure from the accelerated path. -/
inductive ExecError where
  | input (e : InputError)
  | js (e : JsError)
  deriving Repr, DecidableEq

/-- The webgl-path body of `execute`: fold `executeOp` over the compiled
order, keyed by bare node names.  Returns the final environment, the final
context, and the trace of executed node names. -/
def executeInterp (g : Graph) (P : SchedParams)
    (weights inputs : List (String × List Tensor)) (ctx0 : Ctx) :
    TensorMap × Ctx × List String :=
  (compile g).foldl
    (fun acc n =>
      (setKey acc.1 n.name (P.execOp n acc.1 acc.2.1).1,
        (P.execOp n acc.1 acc.2.1).2, acc.2.2 ++ [n.name]))
    (spread (toOptMap weights) (toOptMap inputs), ctx0, [])

/-- `GraphExecutor.execute`: validate inputs first; on the webgl backend run
the interpreted compiled-order fold and select the requested outputs; on any
other backend compile the WebML model and run it (the requested-outputs
argument is not forwarded).  The second component is the trace of node names
executed through `operations.executeOp`. -/
def execute (g : Graph) (P : SchedParams) (nn : NNApi) (tc : TfjsConv)
    (backend : String) (mkOut : List Nat → Tensor) (runErr : Option String)
    (weights inputs : List (String × List Tensor)) (ctx0 : Ctx)
    (outputs? : Option (List String)) :
    Except ExecError (List (String × Option Tensor)) × List String :=
  match checkInput (g.placeholderNodes.map Node.name) inputs with
  | .error e => (.error (.input e), [])
  | .ok _ =>
    if backend = "webgl" then
      (.ok (findOutputs P g (executeInterp g P weights inputs ctx0).1
        (executeInterp g P weights inputs ctx0).2.1 outputs?),
        (executeInterp g P weights inputs ctx0).2.2)
    else
      match compileWebMLModel nn tc g weights inputs with
      | .error e => (.error (.js e), [])
      | .ok (st, _, _) =>
        match executeWebMLModel g st mkOut runErr inputs none with
        | .error e => (.error (.js e), [])
        | .ok res => (.ok (res.map (fun kv => (kv.1, some kv.2))), [])

/-! Concrete external-collaborator bundles and graphs used by the
accelerated-path witnesses and counterexamples. -/
def nnD : NNApi := {}

def tcD : TfjsConv :=
  { convOutShape := fun _ _ _ _ _ _ => [], poolOutShape := fun _ _ _ _ => [] }

def mkOutD : List Nat → Tensor := fun s => { id := 99, shape := s }

/-- A two-softmax chain x → s1 → s2 with declared output s2. -/
def smX : Node := { name := "x", op := "placeholder", inputNames := [], children := [1] }

def smS1 : Node := { name := "s1", op := "softmax", inputNames := ["x"], children := [2] }

def smS2 : Node := { name := "s2", op := "softmax", inputNames := ["s1"], children := [] }

def gSm : Graph :=
  { nodes := [smX, smS1, smS2], inputs := [0], placeholders := [0], outputs := [2] }

def tX : Tensor := { id := 10, shape := [1, 4] }

/-- A conv2d + fused bias-add graph whose conv node carries the unsupported
dilations [1, 2, 2, 1]. -/
def cvX : Node :=
  { name := "x", op := "placeholder", inputNames := [], children := [3] }

def cvW : Node := { name := "w", op := "const", inputNames := [], children := [3] }

def cvB : Node := { name := "b", op := "const", inputNames := [], children := [4] }

def cvConv : Node :=
  { name := "conv", op := "conv2d", inputNames := ["x", "w"], children := [4],
    params := [("pad", .s "same"), ("strides", .ns [1, 1, 1, 1]),
      ("dataFormat", .s "NHWC"), ("dilations", .ns [1, 2, 2, 1])] }

def cvAdd : Node :=
  { name := "add", op := "add", inputNames := ["conv", "b"], children := [5] }

def cvOut : Node :=
  { name := "out", op := "identity", inputNames := ["add"], children := [] }

def gConv : Graph :=
  { nodes := [cvX, cvW, cvB, cvConv, cvAdd, cvOut], inputs := [0, 1, 2],
    placeholders := [0], outputs := [4] }

def convInputs : List (String × List Tensor) :=
  [("x", [{ id := 10, shape := [1, 2, 2, 1] }])]

def convWeights : List (String × List Tensor) :=
  [("w", [{ id := 21, shape := [1, 1, 1, 1] }]), ("b", [{ id := 22, shape := [1] }])]

/-- Concrete data for the C7 witness: a conv2d with padding mode "reflect". -/
def convPadNode : Node :=
  { name := "convp", op := "conv2d", inputNames := ["x", "w"], children := [1],
    params := [("pad", .s "reflect")] }

def addP : Node :=
  { name := "addp", op := "add", inputNames := ["convp", "b"], children := [2] }

def outP : Node :=
  { name := "outp", op := "identity", inputNames := ["addp"], children := [] }

def gPad : Graph :=
  { nodes := [convPadNode, addP, outP], inputs := [0], placeholders := [0],
    outputs := [1] }

def stPad : WebMLState :=
  ⟨3, [("x", ⟨0, "float32", [1, 2, 2, 1]⟩), ("w", ⟨1, "float32", [1, 1, 1, 1]⟩),
    ("b", ⟨2, "float32", [1]⟩)], [], [], [], []⟩

/-- The successful compilation state reached on `gConv` despite its
unsupported dilations. -/
def stConvFinal : WebMLState :=
  ⟨8,
    [("b", ⟨0, "float32", [1]⟩), ("w", ⟨1, "float32", [1, 1, 1, 1]⟩),
      ("x", ⟨2, "float32", [1, 2, 2, 1]⟩), ("add", ⟨7, "float32", []⟩)],
    ["b", "w", "x", "conv", "add"],
    [(30, [1]), (30, [1, 1, 1, 1]), (30, [1, 2, 2, 1]), (32, []), (32, []),
      (32, []), (32, []), (30, [])],
    [(0, .tensorBuffer 22), (1, .tensorBuffer 21), (3, .int32Array [1]),
      (4, .int32Array [1]), (5, .int32Array [1]), (6, .int32Array [0])],
    [(3, [2, 1, 0, 3, 4, 5, 6], [7])]⟩

/-- Concrete data for the C9 witness: a conv2d whose only child is an
"identity" node. -/
def convBad : Node :=
  { name := "convb", op := "conv2d", inputNames := ["x", "w"], children := [1] }

def nonAdd : Node :=
  { name := "na", op := "identity", inputNames := ["convb"], children := [] }

def gBad9 : Graph :=
  { nodes := [convBad, nonAdd], inputs := [0], placeholders := [0], outputs := [1] }

def stBad9 : WebMLState :=
  ⟨2, [("x", ⟨0, "float32", [1, 2, 2, 1]⟩), ("w", ⟨1, "float32", [1, 1, 1, 1]⟩)],
    [], [], [], []⟩

/-- Concrete data for the C10 witness: a squeeze with axis [1, 2] over a
4-D input of shape [2, 3, 5, 7]. -/
def sqNode : Node :=
  { name := "sq", op := "squeeze", inputNames := ["in0"],
    params := [("axis", .ns [1, 2])] }

def sqSt : WebMLState :=
  ⟨1, [("in0", ⟨0, "float32", [2, 3, 5, 7]⟩)], [], [], [], []⟩

example : compile gLinear = [nodeX, nodeY, nodeZ] := by decide

example : compile gDiamond = [dA, dC, dB, dD] := by decide

lemma mem_foldl_push {α : Type} (p : α → Bool) :
    ∀ (cs rest : List α) (x : α),
      x ∈ cs.foldl (fun s c => if p c then c :: s else s) rest →
      x ∈ rest ∨ (x ∈ cs ∧ p x = true) := by
  intro cs
  induction cs with
  | nil => intro rest x hx; exact Or.inl hx
  | cons c cs ih =>
    intro rest x hx
    simp only [List.foldl_cons] at hx
    rcases ih _ x hx with h | h
    · by_cases hp : p c
      · simp only [hp, if_true, List.mem_cons] at h
        rcases h with rfl | h
        · exact Or.inr ⟨List.mem_cons_self _ _, hp⟩
        · exact Or.inl h
      · simp only [hp, if_false] at h
        exact Or.inl h
    · exact Or.inr ⟨List.mem_cons_of_mem _ h.1, h.2⟩

lemma append_singleton_split {α : Type} (l : List α) (x : α) (pre : List α) (n : α)
    (rest : List α) (h : l ++ [x] = pre ++ n :: rest) :
    (∃ rest', l = pre ++ n :: rest') ∨ (pre = l ∧ n = x ∧ rest = []) := by
  rcases List.eq_nil_or_concat rest with rfl | ⟨rs, y, rfl⟩
  · obtain ⟨h1, h2⟩ := List.append_inj' h rfl
    right
    refine ⟨h1.symm, ?_, rfl⟩
    injection h2 with h2 _
    exact h2.symm
  · have h' : l ++ [x] = (pre ++ n :: rs) ++ [y] := by
      rw [h, List.concat_eq_append]; simp
    obtain ⟨h1, h2⟩ := List.append_inj' h' rfl
    exact Or.inl ⟨rs, h1⟩

lemma compileLoop_topo (g : Graph) :
    ∀ (fuel : Nat) (stack : List Node) (visited : List String) (ord : List Node),
      (∀ c ∈ stack, ∀ nm ∈ c.inputNames, baseName nm ∈ visited) →
      (∀ v ∈ visited, ∃ m ∈ ord, m.name = v) →
      TopoAfterProducers ord →
      TopoAfterProducers (compileLoop g fuel stack visited ord) := by
  intro fuel
  induction fuel with
  | zero =>
    intro stack visited ord _ _ hP
    simpa [compileLoop] using hP
  | succ fuel ih =>
    intro stack visited ord h1 h2 hP
    match stack with
    | [] => simpa [compileLoop] using hP
    | node :: rest =>
      rw [compileLoop]
      apply ih
      · intro c hc nm hnm
        rcases mem_foldl_push _ _ _ _ hc with h | ⟨_, hr⟩
        · exact List.mem_cons_of_mem _ (h1 c (List.mem_cons_of_mem _ h) nm hnm)
        · have hall := (Bool.and_eq_true _ _ |>.mp hr).2
          rw [List.all_eq_true] at hall
          exact List.mem_of_elem_eq_true (hall nm hnm)
      · intro v hv
        rcases List.mem_cons.mp hv with rfl | hv
        · exact ⟨node, by simp, rfl⟩
        · obtain ⟨m, hm, hname⟩ := h2 v hv
          exact ⟨m, List.mem_append_left _ hm, hname⟩
      · intro pre n rest' heq nm hnm
        rcases append_singleton_split _ _ _ _ _ heq with ⟨rest'', hord⟩ | ⟨hpre, hn, _⟩
        · exact hP pre n rest'' hord nm hnm
        · subst hpre
          subst hn
          have hb : baseName nm ∈ visited := h1 n (List.mem_cons_self _ _) nm hnm
          exact h2 _ hb

/-- Claim C1: for a control-flow-free graph whose seed nodes (the graph
inputs) declare no inputs of their own, the order emitted by `compile` is a
valid topological order — wherever a node occurs in the compiled sequence,
the producer of each of its declared inputs occurs earlier. -/
theorem compile_topological (g : Graph)
    (hseed : ∀ n ∈ g.inputNodes, n.inputNames = [])
    (pre : List Node) (n : Node) (rest : List Node)
    (h : compile g = pre ++ n :: rest)
    (nm : String) (hnm : nm ∈ n.inputNames) :
    ∃ m ∈ pre, m.name = baseName nm := by
  by_cases hcf : g.withControlFlow
  · rw [compile, if_pos hcf] at h
    exact absurd h (by simp)
  · rw [compile, if_neg hcf] at h
    refine compileLoop_topo g _ _ _ _ ?_ ?_ ?_ pre n rest h nm hnm
    · intro c hc nm' hnm'
      rw [hseed c (List.mem_reverse.mp hc)] at hnm'
      exact absurd hnm' (List.not_mem_nil _)
    · intro v hv
      exact absurd hv (List.not_mem_nil _)
    · intro pre' n' rest' heq
      exact absurd heq (by simp)

/-- Witness for C1 at the concrete linear graph x → y → z: `compile` yields
`[x, y, z]`, and the producer of y's input "x" indeed occurs in the prefix. -/
theorem compile_topological_witness :
    ∃ m ∈ [nodeX], m.name = baseName "x" :=
  compile_topological gLinear (by decide) [nodeX] nodeY [nodeZ] (by decide)
    "x" (by decide)

lemma processChild_cases (P : SchedParams) (m : TensorMap) (ctx : Ctx)
    (st : ChildState) (c : Node) :
    processChild P m ctx st c = st ∨
    (processChild P m ctx st c =
        ⟨P.qualify c.name ctx :: st.added, (ctx, c) :: st.stack,
          st.log ++ [⟨P.qualify c.name ctx, c, m, ctx⟩]⟩ ∧
      P.qualify c.name ctx ∉ st.added ∧
      (c.op = "merge" → ∃ nm ∈ c.inputNames, (P.getT nm m ctx).isSome = true) ∧
      (c.op ≠ "merge" → ∀ nm ∈ c.inputNames, (P.getT nm m ctx).isSome = true)) := by
  unfold processChild
  by_cases h0 : P.qualify c.name ctx ∈ st.added
  · simp [h0]
  · by_cases hm : c.op = "merge"
    · by_cases hany : c.inputNames.any (fun nm => (P.getT nm m ctx).isSome)
      · refine Or.inr ⟨by simp [h0, hm, hany], h0, ?_, ?_⟩
        · intro _
          simpa using List.any_eq_true.mp hany
        · intro hne; exact absurd hm hne
      · simp [h0, hm, hany]
    · by_cases hall : c.inputNames.all (fun nm => (P.getT nm m ctx).isSome)
      · refine Or.inr ⟨by simp [h0, hm, hall], h0, ?_, ?_⟩
        · intro he; exact absurd he hm
        · intro _
          simpa using List.all_eq_true.mp hall
      · simp [h0, hm, hall]

lemma processChild_inv (P : SchedParams) (m : TensorMap) (ctx : Ctx)
    (st : ChildState) (c : Node) (h : LogInv P st.added st.log) :
    LogInv P (processChild P m ctx st c).added (processChild P m ctx st c).log := by
  rcases processChild_cases P m ctx st c with heq | ⟨heq, hnew, hmerge, hnonmerge⟩
  · rw [heq]; exact h
  · rw [heq]
    obtain ⟨hnd, hreg, hok⟩ := h
    refine ⟨?_, ?_, ?_⟩
    · simp only [List.map_append, List.map_cons, List.map_nil]
      rw [List.nodup_append]
      refine ⟨hnd, List.nodup_singleton _, ?_⟩
      intro a ha
      simp only [List.mem_singleton]
      intro hqe
      subst hqe
      obtain ⟨e, he, hq⟩ := List.mem_map.mp ha
      exact hnew (hq ▸ hreg e he)
    · intro e he
      rcases List.mem_append.mp he with he | he
      · exact List.mem_cons_of_mem _ (hreg e he)
      · simp only [List.mem_singleton] at he
        subst he
        exact List.mem_cons_self _ _
    · intro e he
      rcases List.mem_append.mp he with he | he
      · exact hok e he
      · simp only [List.mem_singleton] at he
        subst he
        exact ⟨hnonmerge, hmerge⟩

lemma foldl_processChild_inv (P : SchedParams) (m : TensorMap) (ctx : Ctx) :
    ∀ (cs : List Node) (st : ChildState), LogInv P st.added st.log →
      LogInv P ((cs.foldl (processChild P m ctx) st).added)
        ((cs.foldl (processChild P m ctx) st).log) := by
  intro cs
  induction cs with
  | nil => intro st h; exact h
  | cons c cs ih =>
    intro st h
    exact ih _ (processChild_inv P m ctx st c h)

lemma stepSched_inv (g : Graph) (P : SchedParams) (s : SchedState)
    (h : LogInv P s.added s.log) :
    LogInv P (stepSched g P s).added (stepSched g P s).log := by
  rcases hs : s.stack with _ | ⟨⟨ctxs, node⟩, rest⟩
  · simp only [stepSched, hs]
    exact h
  · simp only [stepSched, hs, stepSchedGo]
    exact foldl_processChild_inv P _ _ (g.childNodes node)
      ⟨s.added, rest, s.log⟩ h

lemma execCFLoop_inv (g : Graph) (P : SchedParams) :
    ∀ (fuel : Nat) (s : SchedState), LogInv P s.added s.log →
      LogInv P (execCFLoop g P fuel s).added (execCFLoop g P fuel s).log := by
  intro fuel
  induction fuel with
  | zero => intro s h; exact h
  | succ fuel ih =>
    intro s h
    rw [execCFLoop]
    match s.stack with
    | [] => exact h
    | _ :: _ => exact ih _ (stepSched_inv g P s h)

/-- Claim C2: in the dynamic scheduler, every non-merge child is pushed onto
the work stack only when all of its declared inputs resolve to tensors under
the environment and frame context in force at the push, and the `added`
guard keeps the frame-qualified names of all scheduled children distinct. -/
theorem scheduler_nonmerge_gate_and_guard (g : Graph) (P : SchedParams)
    (fuel : Nat) (inputs weights : List (String × List Tensor)) (ctx0 : Ctx) :
    (∀ e ∈ (executeWithControlFlow g P fuel inputs weights ctx0).log,
      e.node.op ≠ "merge" →
        ∀ nm ∈ e.node.inputNames, (P.getT nm e.map e.ctx).isSome = true) ∧
    ((executeWithControlFlow g P fuel inputs weights ctx0).log.map
        PushEvent.qname).Nodup := by
  have h := execCFLoop_inv g P fuel
    { stack := (g.inputNodes.map (fun n => (ctx0, n))).reverse,
      map := spread (toOptMap weights) (toOptMap inputs),
      added := [], ctx := ctx0, log := [] }
    ⟨List.nodup_nil, by simp, by simp⟩
  exact ⟨fun e he => (h.2.2 e he).1, h.1⟩

/-- Claim C3: a merge child not yet scheduled under its frame-qualified name
is pushed as soon as any one of its declared inputs resolves to a tensor —
even with every other input unresolved — and is not pushed when none
resolves. -/
theorem merge_scheduled_on_first_input (P : SchedParams) (m : TensorMap)
    (ctx : Ctx) (st : ChildState) (c : Node) (hop : c.op = "merge")
    (hnew : P.qualify c.name ctx ∉ st.added) :
    ((∃ nm ∈ c.inputNames, (P.getT nm m ctx).isSome = true) →
      processChild P m ctx st c =
        ⟨P.qualify c.name ctx :: st.added, (ctx, c) :: st.stack,
          st.log ++ [⟨P.qualify c.name ctx, c, m, ctx⟩]⟩) ∧
    ((∀ nm ∈ c.inputNames, P.getT nm m ctx = none) →
      processChild P m ctx st c = st) := by
  constructor
  · intro hex
    have hany : c.inputNames.any (fun nm => (P.getT nm m ctx).isSome) := by
      rw [List.any_eq_true]
      simpa using hex
    unfold processChild
    simp [hnew, hop, hany]
  · intro hnone
    have hany : ¬c.inputNames.any (fun nm => (P.getT nm m ctx).isSome) := by
      rw [List.any_eq_true]
      rintro ⟨nm, hnm, hsome⟩
      rw [hnone nm hnm] at hsome
      simp at hsome
    unfold processChild
    simp [hnew, hop, hany]

example :
    (executeWithControlFlow gCF Pconc 10 [("p", [{ id := 10 }])] [] []).log =
      [⟨"s1", cfS1, e1map, []⟩, ⟨"s2", cfS2, e1map, []⟩,
        ⟨"mrg", cfM, mergeMapW, []⟩] := by decide

/-- Witness for C2 at the concrete merge graph: the recorded push of the
non-merge child s1 had its one declared input "p" resolved, and the
frame-qualified names of all scheduled children are pairwise distinct. -/
theorem scheduler_nonmerge_gate_and_guard_witness :
    (∀ nm ∈ cfS1.inputNames, (Pconc.getT nm e1map []).isSome = true) ∧
    ((executeWithControlFlow gCF Pconc 10 [("p", [{ id := 10 }])] [] []).log.map
        PushEvent.qname).Nodup :=
  ⟨(scheduler_nonmerge_gate_and_guard gCF Pconc 10 [("p", [{ id := 10 }])] [] []).1
      ⟨"s1", cfS1, e1map, []⟩ (by decide) (by decide),
    (scheduler_nonmerge_gate_and_guard gCF Pconc 10 [("p", [{ id := 10 }])] [] []).2⟩

/-- Witness for C3: with s2 resolved and s1 still unresolved, the merge node
is pushed immediately — the scheduler does not block on s1. -/
theorem merge_scheduled_on_first_input_witness :
    processChild Pconc mergeMapW [] ⟨["s2", "s1"], [], []⟩ cfM =
      ⟨["mrg", "s2", "s1"], [([], cfM)], [⟨"mrg", cfM, mergeMapW, []⟩]⟩ :=
  (merge_scheduled_on_first_input Pconc mergeMapW [] ⟨["s2", "s1"], [], []⟩ cfM
    (by decide) (by decide)).1 ⟨"s2", by decide, by decide⟩

lemma foldl_collect_eq_flatten {α : Type} (e : α → List Nat) :
    ∀ (xs : List α) (acc : List Nat),
      xs.foldl (fun a x => a ++ e x) acc = acc ++ (xs.map e).flatten := by
  intro xs
  induction xs with
  | nil => intro acc; simp
  | cons x xs ih =>
    intro acc
    simp only [List.foldl_cons, List.map_cons, List.flatten_cons]
    rw [ih (acc ++ e x), List.append_assoc]

lemma disposeScan_eq_flatten (tensors : TensorMap)
    (outputIds inputIds weightIds : List Nat) :
    disposeScan tensors outputIds inputIds weightIds =
      (tensors.map (fun kv =>
        (kv.2.map (disposeTensor outputIds inputIds weightIds)).flatten)).flatten := by
  unfold disposeScan
  have hinner : ∀ (kv : String × List (Option Tensor)) (disposed : List Nat),
      kv.2.foldl (fun d t? => d ++ disposeTensor outputIds inputIds weightIds t?) disposed =
        disposed ++ (kv.2.map (disposeTensor outputIds inputIds weightIds)).flatten := by
    intro kv disposed
    exact foldl_collect_eq_flatten _ _ _
  calc tensors.foldl
        (fun disposed kv => kv.2.foldl
          (fun d t? => d ++ disposeTensor outputIds inputIds weightIds t?) disposed) []
      = tensors.foldl
        (fun disposed kv => disposed ++
          (kv.2.map (disposeTensor outputIds inputIds weightIds)).flatten) [] := by
        congr 1
        funext disposed kv
        exact hinner kv disposed
    _ = _ := by
        rw [foldl_collect_eq_flatten
          (fun kv => (kv.2.map (disposeTensor outputIds inputIds weightIds)).flatten)
          tensors []]
        simp

lemma mem_disposeScan (tensors : TensorMap)
    (outputIds inputIds weightIds : List Nat) (d : Nat) :
    d ∈ disposeScan tensors outputIds inputIds weightIds ↔
      ((∃ kv ∈ tensors, ∃ t : Tensor, some t ∈ kv.2 ∧ t.id = d) ∧
        d ∉ outputIds ∧ d ∉ inputIds ∧ d ∉ weightIds) := by
  rw [disposeScan_eq_flatten]
  constructor
  · intro hd
    rw [List.mem_flatten] at hd
    obtain ⟨l, hl, hdl⟩ := hd
    obtain ⟨kv, hkv, rfl⟩ := List.mem_map.mp hl
    rw [List.mem_flatten] at hdl
    obtain ⟨l', hl', hdl'⟩ := hdl
    obtain ⟨t?, ht?, rfl⟩ := List.mem_map.mp hl'
    rcases t? with _ | t
    · exact absurd hdl' (List.not_mem_nil d)
    · simp only [disposeTensor] at hdl'
      by_cases hcond : t.id ∉ outputIds ∧ t.id ∉ inputIds ∧ t.id ∉ weightIds
      · rw [if_pos hcond] at hdl'
        simp only [List.mem_singleton] at hdl'
        subst hdl'
        exact ⟨⟨kv, hkv, t, ht?, rfl⟩, hcond⟩
      · rw [if_neg hcond] at hdl'
        exact absurd hdl' (List.not_mem_nil d)
  · rintro ⟨⟨kv, hkv, t, ht, rfl⟩, h1, h2, h3⟩
    rw [List.mem_flatten]
    refine ⟨(kv.2.map (disposeTensor outputIds inputIds weightIds)).flatten,
      List.mem_map.mpr ⟨kv, hkv, rfl⟩, ?_⟩
    rw [List.mem_flatten]
    refine ⟨disposeTensor outputIds inputIds weightIds (some t),
      List.mem_map.mpr ⟨some t, ht, rfl⟩, ?_⟩
    simp [disposeTensor, h1, h2, h3]

/-- Claim C4: in a successful `executeAsync` call, an id is disposed exactly
when some tensor bearing it sits in the final environment and it is neither
a returned-output id, nor a supplied-input id, nor a weight id; and every
output, input and weight id is disposed zero times. -/
theorem executeAsync_disposal (g : Graph) (P : SchedParams) (fuel : Nat)
    (weights inputs : List (String × List Tensor)) (ctx0 : Ctx)
    (outputs? : Option (List String))
    (res : List (String × Tensor)) (disposed : List Nat)
    (h : executeAsync g P fuel weights inputs ctx0 outputs? =
      .ok (res, disposed)) :
    (∀ d : Nat, d ∈ disposed ↔
      ((∃ kv ∈ (executeWithControlFlow g P fuel inputs weights ctx0).map,
          ∃ t : Tensor, some t ∈ kv.2 ∧ t.id = d) ∧
        d ∉ res.map (fun kv => kv.2.id) ∧ d ∉ inputIdsOf inputs ∧
        d ∉ weightIdsOf weights)) ∧
    (∀ d : Nat,
      (d ∈ res.map (fun kv => kv.2.id) ∨ d ∈ inputIdsOf inputs ∨
        d ∈ weightIdsOf weights) →
      disposed.count d = 0) := by
  unfold executeAsync at h
  split at h
  · exact absurd h (by simp)
  · next res' hres' =>
    rw [Except.ok.injEq, Prod.mk.injEq] at h
    obtain ⟨rfl, rfl⟩ := h
    constructor
    · intro d
      exact mem_disposeScan _ _ _ _ d
    · intro d hd
      rw [List.count_eq_zero]
      rw [mem_disposeScan]
      rintro ⟨-, h1, h2, h3⟩
      rcases hd with hd | hd | hd
      · exact h1 hd
      · exact h2 hd
      · exact h3 hd

example : executeAsync gCF PconcIds 10 wW inpW [] none =
    .ok ([("mrg", { id := 4 })], [1, 3, 2]) := rfl

@[simp] lemma exThen_ok {α β : Type} (a : α) (f : α → Except JsError β) :
    exThen (.ok a) f = f a := rfl

@[simp] lemma exThen_error {α β : Type} (e : JsError) (f : α → Except JsError β) :
    exThen (.error e) f = .error e := rfl

/-- Witness for C4 at a concrete control-flow run: intermediate id 1 (the
tensor produced for p, not an output/input/weight) is disposed, and the
returned output id 4 is disposed zero times. -/
theorem executeAsync_disposal_witness :
    ((1 : Nat) ∈ ([1, 3, 2] : List Nat) ↔
      ((∃ kv ∈ (executeWithControlFlow gCF PconcIds 10 inpW wW []).map,
          ∃ t : Tensor, some t ∈ kv.2 ∧ t.id = 1) ∧
        (1 : Nat) ∉ [("mrg", ({ id := 4 } : Tensor))].map (fun kv => kv.2.id) ∧
        (1 : Nat) ∉ inputIdsOf inpW ∧ (1 : Nat) ∉ weightIdsOf wW)) ∧
    ([1, 3, 2] : List Nat).count 4 = 0 :=
  ⟨(executeAsync_disposal gCF PconcIds 10 wW inpW [] none
      [("mrg", { id := 4 })] [1, 3, 2] rfl).1 1,
    (executeAsync_disposal gCF PconcIds 10 wW inpW [] none
      [("mrg", { id := 4 })] [1, 3, 2] rfl).2 4 (Or.inl (by decide))⟩

/-! ### Claim C5: input validation -/
/-- Claim C5 (amended): `execute` — on every backend — reports missing
placeholder names (all of them, in declaration order) and otherwise extra
input names (all of them) as an error raised before any node executes (the
execution trace is empty). -/
theorem execute_validates_inputs (g : Graph) (P : SchedParams) (nn : NNApi)
    (tc : TfjsConv) (backend : String) (mkOut : List Nat → Tensor)
    (runErr : Option String) (weights inputs : List (String × List Tensor))
    (ctx0 : Ctx) (outputs? : Option (List String)) :
    (missingOf (g.placeholderNodes.map Node.name) (inputs.map Prod.fst) ≠ [] →
      execute g P nn tc backend mkOut runErr weights inputs ctx0 outputs? =
        (.error (.input (.missing
          (missingOf (g.placeholderNodes.map Node.name) (inputs.map Prod.fst)))), [])) ∧
    (missingOf (g.placeholderNodes.map Node.name) (inputs.map Prod.fst) = [] →
      extraOf (g.placeholderNodes.map Node.name) (inputs.map Prod.fst) ≠ [] →
      execute g P nn tc backend mkOut runErr weights inputs ctx0 outputs? =
        (.error (.input (.extra
          (extraOf (g.placeholderNodes.map Node.name) (inputs.map Prod.fst)))), [])) := by
  constructor
  · intro hmiss
    have hc : checkInput (g.placeholderNodes.map Node.name) inputs =
        .error (.missing (missingOf (g.placeholderNodes.map Node.name)
          (inputs.map Prod.fst))) := by
      unfold checkInput
      rw [if_pos hmiss]
    unfold execute
    rw [hc]
  · intro hmiss hextra
    have hc : checkInput (g.placeholderNodes.map Node.name) inputs =
        .error (.extra (extraOf (g.placeholderNodes.map Node.name)
          (inputs.map Prod.fst))) := by
      unfold checkInput
      rw [if_neg (by simpa using hmiss), if_pos hextra]
    unfold execute
    rw [hc]

/-- Witness for the amended C5: executing the linear graph with no inputs at
all fails with a missing-input error naming exactly "x", with an empty
execution trace. -/
theorem execute_validates_inputs_witness :
    missingOf (gLinear.placeholderNodes.map Node.name)
      (([] : List (String × List Tensor)).map Prod.fst) ≠ [] ∧
    execute gLinear Pconc nnD tcD "webgl" mkOutD none [] [] [] none =
      (.error (.input (.missing ["x"])), []) :=
  ⟨by decide,
    (execute_validates_inputs gLinear Pconc nnD tcD "webgl" mkOutD none [] [] []
      none).1 (by decide)⟩

/-- Counterexample to C5 as stated: `executeAsync` performs no input
validation — with the declared placeholder "x" missing from the (empty)
inputs it still runs to completion and returns a result, instead of
throwing an input-contract error before executing nodes. -/
theorem executeAsync_no_input_validation :
    missingOf (gLinear.placeholderNodes.map Node.name) [] = ["x"] ∧
    executeAsync gLinear Pconc 10 [] [] [] none =
      .ok ([("z", { id := 0 })], []) :=
  ⟨rfl, rfl⟩

/-! ### Claim C6: requested outputs may name any node -/
lemma lookup_setKey_self {α : Type} (m : List (String × α)) (k : String) (v : α) :
    (setKey m k v).lookup k = some v := by
  induction m with
  | nil => simp [setKey, List.lookup]
  | cons kv rest ih =>
    obtain ⟨k', v'⟩ := kv
    by_cases h : k' = k
    · simp [setKey, h, List.lookup]
    · simp only [setKey, if_neg h, List.lookup]
      have : (k == k') = false := by
        simp [Ne.symm h]
      rw [this]
      exact ih

lemma lookup_setKey_ne {α : Type} (m : List (String × α)) (k k' : String) (v : α)
    (h : k' ≠ k) : (setKey m k v).lookup k' = m.lookup k' := by
  induction m with
  | nil =>
    simp only [setKey, List.lookup]
    have hb : (k' == k) = false := by simp [h]
    rw [hb]
  | cons kv rest ih =>
    obtain ⟨k1, v1⟩ := kv
    by_cases h1 : k1 = k
    · subst h1
      simp only [setKey, if_pos rfl, List.lookup]
      have hb : (k' == k1) = false := by simp [h]
      rw [hb]
    · simp only [setKey, if_neg h1, List.lookup]
      by_cases h2 : k' = k1
      · subst h2; simp
      · have hb : (k' == k1) = false := by simp [h2]
        rw [hb]
        exact ih

lemma lookup_foldl_setKey_not_mem {α : Type} (f : String → α) :
    ∀ (names : List String) (acc : List (String × α)) (nm : String),
      nm ∉ names →
      ((names.foldl (fun m name => setKey m name (f name)) acc).lookup nm =
        acc.lookup nm) := by
  intro names
  induction names with
  | nil => intro acc nm _; rfl
  | cons r rest ih =>
    intro acc nm hnm
    simp only [List.foldl_cons]
    rw [ih _ _ (fun h => hnm (List.mem_cons_of_mem _ h))]
    exact lookup_setKey_ne _ _ _ _ (fun h => hnm (h ▸ List.mem_cons_self _ _))

lemma lookup_foldl_setKey_mem {α : Type} (f : String → α) :
    ∀ (names : List String) (acc : List (String × α)) (nm : String),
      nm ∈ names →
      ((names.foldl (fun m name => setKey m name (f name)) acc).lookup nm =
        some (f nm)) := by
  intro names
  induction names with
  | nil => intro acc nm h; exact absurd h (List.not_mem_nil _)
  | cons r rest ih =>
    intro acc nm hnm
    simp only [List.foldl_cons]
    by_cases hr : nm ∈ rest
    · exact ih _ _ hr
    · have : nm = r := by
        rcases List.mem_cons.mp hnm with h | h
        · exact h
        · exact absurd h hr
      subst this
      rw [lookup_foldl_setKey_not_mem f rest _ nm hr]
      exact lookup_setKey_self _ _ _

/-- Claim C6 (amended): on the interpreted (webgl) path, the requested
outputs may name any node — the returned map binds every requested name to
its `getTensor` resolution against the final environment, with no
requirement that the name be a declared graph output; on the accelerated
path the requested-outputs argument is ignored and the returned map holds
exactly the first declared graph output. -/
theorem execute_returns_requested_nodes (g : Graph) (P : SchedParams)
    (nn : NNApi) (tc : TfjsConv) (mkOut : List Nat → Tensor)
    (runErr : Option String) (weights inputs : List (String × List Tensor))
    (ctx0 : Ctx) (names : List String) (nm : String) (hnm : nm ∈ names)
    (hchk : checkInput (g.placeholderNodes.map Node.name) inputs = .ok ()) :
    ((execute g P nn tc "webgl" mkOut runErr weights inputs ctx0 (some names)).1 =
      .ok (findOutputs P g (executeInterp g P weights inputs ctx0).1
        (executeInterp g P weights inputs ctx0).2.1 (some names))) ∧
    ((findOutputs P g (executeInterp g P weights inputs ctx0).1
        (executeInterp g P weights inputs ctx0).2.1 (some names)).lookup nm =
      some (P.getT nm (executeInterp g P weights inputs ctx0).1
        (executeInterp g P weights inputs ctx0).2.1)) ∧
    (∀ (st : WebMLState) (res : List (String × Tensor)),
      executeWebMLModel g st mkOut runErr inputs (some names) = .ok res →
      res.map Prod.fst = (g.outputNodes.map Node.name).take 1) := by
  refine ⟨?_, ?_, ?_⟩
  · unfold execute
    rw [hchk]
    simp
  · unfold findOutputs
    exact lookup_foldl_setKey_mem _ names [] nm hnm
  · intro st res hres
    unfold executeWebMLModel at hres
    rcases hp : g.placeholderNodes.head? with _ | p
    · simp [hp] at hres
    · simp only [hp] at hres
      rcases hin : (inputs.lookup p.name).bind List.head? with _ | t
      · simp [hin] at hres
      · simp only [hin] at hres
        rcases ho : g.outputNodes.head? with _ | o
        · simp [ho] at hres
        · simp only [ho] at hres
          rcases hinfo : st.operandInfos.lookup o.name with _ | info
          · simp [hinfo] at hres
          · simp only [hinfo] at hres
            rcases hrun : runErr with _ | e
            · simp only [hrun, Except.ok.injEq] at hres
              subst hres
              simp only [List.map_cons, List.map_nil]
              rcases houts : g.outputNodes with _ | ⟨o', rest⟩
              · rw [houts] at ho; exact absurd ho (by simp)
              · rw [houts] at ho
                simp only [List.head?_cons, Option.some.injEq] at ho
                subst ho
                simp
            · simp [hrun] at hres

/-- Witness for the amended C6 at the softmax chain on the interpreted path:
requesting the intermediate s1 (not a declared output) yields its value. -/
theorem execute_returns_requested_nodes_witness :
    (findOutputs Pconc gSm (executeInterp gSm Pconc [] [("x", [tX])] []).1
      (executeInterp gSm Pconc [] [("x", [tX])] []).2.1 (some ["s1"])).lookup "s1" =
      some (Pconc.getT "s1" (executeInterp gSm Pconc [] [("x", [tX])] []).1
        (executeInterp gSm Pconc [] [("x", [tX])] []).2.1) :=
  (execute_returns_requested_nodes gSm Pconc nnD tcD mkOutD none [] [("x", [tX])]
    [] ["s1"] "s1" (by decide) rfl).2.1

/-- Counterexample to C6 as stated: on the accelerated (non-webgl) path the
requested intermediate "s1" is NOT in the returned map — the call returns
only the first declared output s2. -/
theorem accelerated_path_ignores_requested_outputs :
    (execute gSm Pconc nnD tcD "webml" mkOutD none [] [("x", [tX])] []
      (some ["s1"])).1 =
      .ok [("s2", some { id := 99, shape := [1, 4] })] ∧
    ([("s2", some ({ id := 99, shape := [1, 4] } : Tensor))] :
      List (String × Option Tensor)).lookup "s1" = none :=
  ⟨rfl, rfl⟩

/-! ### Claim C7: unsupported parameter values abort accelerated compilation -/
/-- Claim C7 (amended): during accelerated compilation, a conv2d /
depthwiseConv2d node with a padding mode outside 'same'/'valid' or a data
layout other than NHWC aborts compilation with a thrown error naming the
offending value, and an avgPool node with such a padding mode likewise;
dilations are NOT validated (see the counterexample). -/
theorem accel_unsupported_param_errors (nn : NNApi) (tc : TfjsConv) (g : Graph)
    (map : List (String × List Tensor)) (st : WebMLState) :
    (∀ node c0 c2, (node.op = "conv2d" ∨ node.op = "depthwiseConv2d") →
      node.name ∉ st.visited →
      g.childAt node 0 = some c0 → c0.op = "add" → g.childAt c0 0 = some c2 →
      (∃ i0 info, node.inputNames[0]? = some i0 ∧
        st.operandInfos.lookup i0 = some info) →
      (∃ i1 info, node.inputNames[1]? = some i1 ∧
        st.operandInfos.lookup i1 = some info) →
      (∃ ib info, c0.inputNames[1]? = some ib ∧
        st.operandInfos.lookup ib = some info) →
      node.param? "pad" ≠ some (.s "same") →
      node.param? "pad" ≠ some (.s "valid") →
      compileNodeWebML nn tc g map st node =
        .error (.thrown ("padding " ++ pvShow (node.param? "pad") ++
          " is not supported"))) ∧
    (∀ node c0 c2 l dfs, (node.op = "conv2d" ∨ node.op = "depthwiseConv2d") →
      node.name ∉ st.visited →
      g.childAt node 0 = some c0 → c0.op = "add" → g.childAt c0 0 = some c2 →
      (∃ i0 info, node.inputNames[0]? = some i0 ∧
        st.operandInfos.lookup i0 = some info) →
      (∃ i1 info, node.inputNames[1]? = some i1 ∧
        st.operandInfos.lookup i1 = some info) →
      (∃ ib info, c0.inputNames[1]? = some ib ∧
        st.operandInfos.lookup ib = some info) →
      node.param? "pad" = some (.s "same") →
      node.param? "strides" = some (.ns l) →
      node.param? "dataFormat" = some (.s dfs) →
      jsToUpper dfs ≠ "NHWC" →
      compileNodeWebML nn tc g map st node =
        .error (.thrown ("dataFormat " ++ jsToUpper dfs ++ " is not supported"))) ∧
    (∀ node c0, node.op = "avgPool" → node.name ∉ st.visited →
      g.childAt node 0 = some c0 →
      (∃ i0 info, node.inputNames[0]? = some i0 ∧
        st.operandInfos.lookup i0 = some info) →
      node.param? "pad" ≠ some (.s "same") →
      node.param? "pad" ≠ some (.s "valid") →
      compileNodeWebML nn tc g map st node =
        .error (.thrown ("padding " ++ pvShow (node.param? "pad") ++
          " is not supported"))) := by
  refine ⟨?_, ?_, ?_⟩
  · rintro node c0 c2 hop hv hc0 hadd hc2 ⟨i0, inf0, hi0, hl0⟩ ⟨i1, inf1, hi1, hl1⟩
      ⟨ib, infb, hib, hlb⟩ hp1 hp2
    rcases hop with hopc | hopc <;>
      simp [compileNodeWebML, convCompile, convCompileCore, lookInfo, padCompute,
        hv, hopc, hc0, hadd, hc2, hi0, hl0, hi1, hl1, hib, hlb, hp1, hp2]
  · rintro node c0 c2 l dfs hop hv hc0 hadd hc2 ⟨i0, inf0, hi0, hl0⟩
      ⟨i1, inf1, hi1, hl1⟩ ⟨ib, infb, hib, hlb⟩ hpad hstr hdf hne
    rcases hop with hopc | hopc <;>
      simp [compileNodeWebML, convCompile, convCompileCore, lookInfo, padCompute,
        numsParam, dataFormatParamCheck, dataFormatParam,
        hv, hopc, hc0, hadd, hc2, hi0, hl0, hi1, hl1, hib, hlb, hpad, hstr, hdf, hne]
  · rintro node c0 hop hv hc0 ⟨i0, inf0, hi0, hl0⟩ hp1 hp2
    simp [compileNodeWebML, poolCompile, poolCompileCore, lookInfo, padCompute,
      hv, hop, hc0, hi0, hl0, hp1, hp2]

/-- Witness for the amended C7: the conv2d with padding "reflect" aborts
with a thrown error naming the value. -/
theorem accel_unsupported_param_errors_witness :
    compileNodeWebML nnD tcD gPad [] stPad convPadNode =
      .error (.thrown "padding reflect is not supported") :=
  (accel_unsupported_param_errors nnD tcD gPad [] stPad).1 convPadNode addP outP
    (Or.inl rfl) (by decide) rfl rfl rfl
    ⟨"x", ⟨0, "float32", [1, 2, 2, 1]⟩, rfl, rfl⟩
    ⟨"w", ⟨1, "float32", [1, 1, 1, 1]⟩, rfl, rfl⟩
    ⟨"b", ⟨2, "float32", [1]⟩, rfl, rfl⟩
    (by decide) (by decide)

/-- Counterexample to C7 as stated: the conv node of `gConv` carries
dilations [1, 2, 2, 1] ≠ [1, 1, 1, 1], yet accelerated compilation of the
whole graph succeeds — the dilation check of the source is commented out,
so no error naming the dilation value is ever thrown. -/
theorem dilations_not_validated :
    cvConv.param? "dilations" = some (.ns [1, 2, 2, 1]) ∧
    ¬ ([1, 2, 2, 1] : List Int) = [1, 1, 1, 1] ∧
    compileWebMLModel nnD tcD gConv convWeights convInputs =
      .ok (stConvFinal, 2, 7) :=
  ⟨rfl, by decide, rfl⟩

/-! ### Claim C8: unsupported operator kinds are skipped silently -/
/-- Claim C8: a node whose operator kind is outside the supported vocabulary
is left untouched by accelerated compilation — the state (and hence the
emitted operations) is unchanged, no error is raised, and the fold over the
compiled order proceeds with the remaining nodes as if the node were not
there. -/
theorem accel_unsupported_op_skipped (nn : NNApi) (tc : TfjsConv) (g : Graph)
    (map : List (String × List Tensor)) (st : WebMLState) (node : Node)
    (h : node.op ∉ (["placeholder", "const", "conv2d", "depthwiseConv2d",
      "avgPool", "squeeze", "softmax"] : List String)) :
    compileNodeWebML nn tc g map st node = .ok st ∧
    ∀ rest : List Node,
      List.foldlM (fun s n => compileNodeWebML nn tc g map s n) st (node :: rest) =
        List.foldlM (fun s n => compileNodeWebML nn tc g map s n) st rest := by
  have h1 : node.op ≠ "placeholder" := fun he => h (by simp [he])
  have h2 : node.op ≠ "const" := fun he => h (by simp [he])
  have h3 : node.op ≠ "conv2d" := fun he => h (by simp [he])
  have h4 : node.op ≠ "depthwiseConv2d" := fun he => h (by simp [he])
  have h5 : node.op ≠ "avgPool" := fun he => h (by simp [he])
  have h6 : node.op ≠ "squeeze" := fun he => h (by simp [he])
  have h7 : node.op ≠ "softmax" := fun he => h (by simp [he])
  have hmain : compileNodeWebML nn tc g map st node = .ok st := by
    by_cases hv : node.name ∈ st.visited
    · simp [compileNodeWebML, hv]
    · simp [compileNodeWebML, hv, h1, h2, h3, h4, h5, h6, h7]
  refine ⟨hmain, ?_⟩
  intro rest
  rw [List.foldlM_cons, hmain]
  rfl

/-- Witness for C8: the "identity" node of the conv graph is skipped with
the compilation state untouched, and folding over it equals folding over
the remaining order. -/
theorem accel_unsupported_op_skipped_witness :
    compileNodeWebML nnD tcD gConv (spread convWeights convInputs)
      initWebMLState cvOut = .ok initWebMLState ∧
    List.foldlM (fun s n => compileNodeWebML nnD tcD gConv
        (spread convWeights convInputs) s n) initWebMLState [cvOut] =
      List.foldlM (fun s n => compileNodeWebML nnD tcD gConv
        (spread convWeights convInputs) s n) initWebMLState [] :=
  ⟨(accel_unsupported_op_skipped nnD tcD gConv (spread convWeights convInputs)
      initWebMLState cvOut (by decide)).1,
    (accel_unsupported_op_skipped nnD tcD gConv (spread convWeights convInputs)
      initWebMLState cvOut (by decide)).2 []⟩

/-! ### Claim C9: the bias lookup dereferences undefined when the first
child is not an add node -/
/-- Claim C9: accelerated compilation of a conv2d / depthwiseConv2d node
whose first child is not an 'add' node crashes at the unconditional
`biasAdd.inputNames` access — an undefined-dereference TypeError, not any
guarded thrown error. -/
theorem conv_bias_lookup_undefined (nn : NNApi) (tc : TfjsConv) (g : Graph)
    (map : List (String × List Tensor)) (st : WebMLState) (node c0 : Node)
    (hop : node.op = "conv2d" ∨ node.op = "depthwiseConv2d")
    (hv : node.name ∉ st.visited)
    (hc0 : g.childAt node 0 = some c0)
    (hadd : c0.op ≠ "add")
    (hin : ∃ i0 info, node.inputNames[0]? = some i0 ∧
      st.operandInfos.lookup i0 = some info)
    (hfl : ∃ i1 info, node.inputNames[1]? = some i1 ∧
      st.operandInfos.lookup i1 = some info) :
    compileNodeWebML nn tc g map st node = .error (.typeError "biasAdd.inputNames") ∧
    ∀ msg : String, compileNodeWebML nn tc g map st node ≠ .error (.thrown msg) := by
  obtain ⟨i0, inf0, hi0, hl0⟩ := hin
  obtain ⟨i1, inf1, hi1, hl1⟩ := hfl
  have hmain : compileNodeWebML nn tc g map st node =
      .error (.typeError "biasAdd.inputNames") := by
    rcases hop with hopc | hopc <;>
      simp [compileNodeWebML, convCompile, convCompileCore, lookInfo,
        hv, hopc, hc0, hadd, hi0, hl0, hi1, hl1]
  refine ⟨hmain, ?_⟩
  intro msg hcontra
  rw [hmain] at hcontra
  exact absurd hcontra (by simp)

/-- Witness for C9: the concrete conv2d with a non-add first child crashes
with the TypeError, not a thrown error. -/
theorem conv_bias_lookup_undefined_witness :
    compileNodeWebML nnD tcD gBad9 [] stBad9 convBad =
      .error (.typeError "biasAdd.inputNames") :=
  (conv_bias_lookup_undefined nnD tcD gBad9 [] stBad9 convBad nonAdd
    (Or.inl rfl) (by decide) rfl (by decide)
    ⟨"x", ⟨0, "float32", [1, 2, 2, 1]⟩, rfl, rfl⟩
    ⟨"w", ⟨1, "float32", [1, 1, 1, 1]⟩, rfl, rfl⟩).1

/-! ### Claim C10: squeeze removes leading dimensions, keyed by axis indices -/
lemma squeezeGo_eq_drop (axis : List Int) :
    ∀ (s : List Nat) (i : Nat) (acc : List Nat),
      squeezeGo axis i acc s = acc ++ s.drop (axis.length - i) := by
  intro s
  induction s with
  | nil => intro i acc; simp [squeezeGo]
  | cons v rest ih =>
    intro i acc
    rw [squeezeGo]
    by_cases hi : i < axis.length
    · have hj : jsIndexInArray i axis = true := by
        simp [jsIndexInArray, hi]
      rw [hj]
      simp only [Bool.not_true, Bool.false_eq_true, if_false]
      rw [ih]
      have he : axis.length - i = (axis.length - (i + 1)) + 1 := by omega
      rw [he, List.drop_succ_cons]
    · have hj : jsIndexInArray i axis = false := by
        simp only [jsIndexInArray, decide_eq_false_iff_not]
        omega
      rw [hj]
      simp only [Bool.not_false, if_true]
      rw [ih]
      have h0 : axis.length - i = 0 := by omega
      have h1 : axis.length - (i + 1) = 0 := by omega
      rw [h0, h1]
      simp

/-- The `index in axis` membership test makes the squeeze branch drop
exactly the first `axis.length` input dimensions, whatever the axis values. -/
lemma squeezeOutShape_eq_drop (s : List Nat) (axis : List Int) :
    squeezeOutShape s axis = s.drop axis.length := by
  unfold squeezeOutShape
  rw [squeezeGo_eq_drop]
  simp

/-- Claim C10: for a squeeze node with axis parameter `a`, the emitted
reshape target shape (both the value bound to the new-shape operand and the
registered output shape) omits exactly the input dimensions at positions
0 … length(a)−1 — i.e. it is `shape.drop a.length` — because the source
tests `index in axis`, which checks against the indices of the axis array,
not its values. -/
theorem squeeze_drops_leading_dims (nn : NNApi) (tc : TfjsConv) (g : Graph)
    (map : List (String × List Tensor)) (st : WebMLState) (node : Node)
    (i0 : String) (info : OperandInfo) (a : List Int)
    (hop : node.op = "squeeze") (hv : node.name ∉ st.visited)
    (hin : node.inputNames[0]? = some i0)
    (hlook : st.operandInfos.lookup i0 = some info)
    (hax : node.param? "axis" = some (.ns a)) :
    compileNodeWebML nn tc g map st node = .ok
      { st with
        operandIndex := st.operandIndex + 2,
        operandInfos := setKey st.operandInfos node.name
          ⟨st.operandIndex + 1, info.dtype, info.shape.drop a.length⟩,
        operands := st.operands ++
          [(nn.TENSOR_INT32, [(info.shape.drop a.length).length]),
            (nn.TENSOR_FLOAT32, info.shape.drop a.length)],
        operandValues := setKey st.operandValues st.operandIndex
          (.int32Array ((info.shape.drop a.length).map Int.ofNat)),
        operations := st.operations ++
          [(nn.RESHAPE, [info.index, st.operandIndex], [st.operandIndex + 1])],
        visited := st.visited ++ [node.name] } ∧
    squeezeOutShape info.shape a = info.shape.drop a.length := by
  refine ⟨?_, squeezeOutShape_eq_drop _ _⟩
  simp [compileNodeWebML, squeezeCompile, lookInfo, axisParam,
    hv, hop, hin, hlook, hax, squeezeOutShape_eq_drop]

/-- Witness for C10: with axis [1, 2] the dimensions at positions 0 and 1
are removed — the reshape target is [5, 7], not [2, 7]. -/
theorem squeeze_drops_leading_dims_witness :
    compileNodeWebML nnD tcD gLinear [] sqSt sqNode = .ok
      { operandIndex := 3,
        operandInfos := [("in0", ⟨0, "float32", [2, 3, 5, 7]⟩),
          ("sq", ⟨2, "float32", [5, 7]⟩)],
        visited := ["sq"],
        operands := [(31, [2]), (30, [5, 7])],
        operandValues := [(1, .int32Array [5, 7])],
        operations := [(22, [0, 1], [2])] } ∧
    squeezeOutShape [2, 3, 5, 7] [1, 2] = [5, 7] :=
  ⟨(squeeze_drops_leading_dims nnD tcD gLinear [] sqSt sqNode "in0"
      ⟨0, "float32", [2, 3, 5, 7]⟩ [1, 2] rfl (by decide) rfl rfl rfl).1,
    (squeeze_drops_leading_dims nnD tcD gLinear [] sqSt sqNode "in0"
      ⟨0, "float32", [2, 3, 5, 7]⟩ [1, 2] rfl (by decide) rfl rfl rfl).2⟩

end GraphExec
